import Mathlib

/-!
Verification of the zendesk-mcp-server repository against its natural-language
specification.

The development shallowly embeds the JavaScript sources:

* `src/http-server.js` — the HTTP transport: bearer-token authentication,
  the `/mcp` endpoint with its per-session server map, the monitoring
  endpoints (`/health`, `/metrics`, `/connections`, `/tools`), the
  session-close callback and the periodic stale-session sweep.
* `src/server.js` — the per-session server factory with its risk
  classification (`isRiskyTool` / `getToolRiskInfo`).
* `src/tools/support.js` — the dedicated risk-listing helpers
  (`isRiskyTool` / `getToolRiskLevel`).
* `src/tools/tickets.js` — the `update_ticket` payload construction and the
  `summarize_ticket_comments` pagination loop.
* `src/tools/users.js` — the `update_user` payload construction.
* `src/zendesk-client.js` — the credential guard in `ZendeskClient.request`.

Modelling conventions:

* JavaScript `Map` objects are embedded as association lists in insertion
  order (`set` replaces in place or appends, `get` scans, `delete` removes);
  the `Set` of active connections is a duplicate-free list.
* JavaScript strings that are only compared or stored are embedded as Lean
  `String`; the `Authorization` header, which is inspected character by
  character (`startsWith` / `substring`), is embedded as `List Char`.
* `Date.now()` timestamps are embedded as `Int` (milliseconds).
* Object identity of freshly constructed `McpServer` / transport instances
  is embedded by an instance counter: each creation draws fresh numeric
  identities, mirroring `new` allocating distinct objects.
* JavaScript object literals built by conditional property assignment
  (`if (x !== undefined) obj.k = x`) are embedded as key/value lists in
  assignment order; a key is in the list exactly when the assignment ran.
-/

namespace ZendeskMcp

/-! ## Risk classification (`src/server.js` and `src/tools/support.js`) -/

/-- From `src/server.js`: `isRiskyTool` tests the name against the regex
list `[/^create_/, /^update_/, /^delete_/]` via `some`.  The identical
function is also defined in `src/tools/support.js`. -/
def isRiskyTool (toolName : String) : Bool :=
  toolName.startsWith "create_" || toolName.startsWith "update_" ||
    toolName.startsWith "delete_"

/-- Result shape of `getToolRiskInfo` in `src/server.js`.  The source field
`prefix` (the string prepended to the tool description) is named
`descriptionLabel` here because `prefix` is not usable as a Lean field
name. -/
structure RiskInfo where
  isRisky : Bool
  riskLevel : String
  descriptionLabel : String
deriving DecidableEq, Repr

/-- From `src/server.js`: `getToolRiskInfo(toolName, description)` — the
risk label computed at registration time and reused by the `/tools`
endpoint (`src/http-server.js`) and the tool-safety resource.  The
`description` argument is unused by the source function and omitted. -/
def getToolRiskInfo (toolName : String) : RiskInfo :=
  if isRiskyTool toolName then
    let riskType :=
      if toolName.startsWith "delete_" then "HIGH RISK"
      else if toolName.startsWith "create_" then "MODERATE RISK"
      else "MODERATE RISK"
    { isRisky := true, riskLevel := riskType
      descriptionLabel := "⚠️ " ++ riskType ++ ": " }
  else
    { isRisky := false, riskLevel := "SAFE"
      descriptionLabel := "✅ SAFE (Read-only): " }

/-- From `src/tools/support.js`: `getToolRiskLevel(toolName)`, the label
computed by the dedicated risk-listing operation `list_risky_tools`. -/
def getToolRiskLevel (toolName : String) : String :=
  if toolName.startsWith "delete_" then "HIGH RISK"
  else if toolName.startsWith "create_" || toolName.startsWith "update_" then
    "MODERATE RISK"
  else "SAFE"

/-- Modelled from the spec: the pure name-classification function — a name
starting with `delete_` maps to HIGH RISK, a name starting with `create_`
or `update_` maps to MODERATE RISK, and every other name maps to SAFE. -/
def specRiskLabel (toolName : String) : String :=
  if toolName.startsWith "delete_" then "HIGH RISK"
  else if toolName.startsWith "create_" then "MODERATE RISK"
  else if toolName.startsWith "update_" then "MODERATE RISK"
  else "SAFE"

/-! ## Association-list embedding of JavaScript `Map` -/

/-- Embeds `Map.prototype.get`: scan for the key, returning the stored value. -/
def mapGet (k : String) : List (String × α) → Option α
  | [] => none
  | (k', v) :: rest => if k' = k then some v else mapGet k rest

/-- Embeds `Map.prototype.set`: replace the value in place if the key is present,
append a new entry otherwise. -/
def mapSet (k : String) (v : α) : List (String × α) → List (String × α)
  | [] => [(k, v)]
  | (k', v') :: rest =>
      if k' = k then (k, v) :: rest else (k', v') :: mapSet k v rest

/-- Embeds `Map.prototype.delete`: drop the entry with the given key. -/
def mapDelete (k : String) (l : List (String × α)) : List (String × α) :=
  l.filter (fun p => p.1 != k)

/-- The key set of a map, in insertion order. -/
def keysOf (l : List (String × α)) : List String := l.map Prod.fst

/-! ## Session lifecycle state (`src/http-server.js`) -/

/-- Client metadata captured by `getClientInfo` (`src/http-server.js`):
source IP, user agent and host header. -/
structure ClientInfo where
  ip : String
  userAgent : String
  host : String
deriving DecidableEq, Repr

/-- One entry of the `sessionServers` map:
`{ server: sessionServer, transport: sessionTransport }`.  The two objects
allocated by `createServer()` and `createSessionTransport(sessionId)` are
embedded by their numeric instance identities. -/
structure SessionData where
  serverId : Nat
  transportId : Nat
deriving DecidableEq, Repr

/-- The module-level mutable state of `src/http-server.js`:
`sessionServers`, `sessionClientInfo`, `sessionTimestamps`,
`activeConnections`, `connectionCounter`, plus the instance counter
embedding object allocation. -/
structure ServerState where
  sessionServers : List (String × SessionData)
  sessionClientInfo : List (String × ClientInfo)
  sessionTimestamps : List (String × Int)
  activeConnections : List String
  connectionCounter : Nat
  nextInstanceId : Nat
deriving DecidableEq, Repr

/-- The state at process start: all maps empty, counters zero. -/
def initialState : ServerState :=
  { sessionServers := [], sessionClientInfo := [], sessionTimestamps := []
    activeConnections := [], connectionCounter := 0, nextInstanceId := 0 }

/-- Constant `SESSION_TIMEOUT = 30 * 60 * 1000` (30 minutes, in milliseconds). -/
def SESSION_TIMEOUT : Int := 30 * 60 * 1000

/-- Constant `CLEANUP_INTERVAL = 5 * 60 * 1000` (5 minutes, in milliseconds). -/
def CLEANUP_INTERVAL : Int := 5 * 60 * 1000

/-! ## Authentication middleware (`authenticateRequest`) -/

/-- Outcome of the `authenticateRequest` middleware: call `next()` or send
a 401 JSON response. -/
inductive AuthResult
  | proceed
  | reject401
deriving DecidableEq, Repr

/-- From `src/http-server.js`: `authenticateRequest`.  If `MCP_AUTH_TOKEN`
is unset, skip authentication.  Otherwise reject when the header is absent
or empty (both falsy in JS, and the empty string also fails the
`startsWith('Bearer ')` test) or does not start with `'Bearer '`, then
compare `authHeader.substring(7)` with the configured token. -/
def authenticateRequest (mcpAuthToken : Option (List Char))
    (authHeader : Option (List Char)) : AuthResult :=
  match mcpAuthToken with
  | none => AuthResult.proceed
  | some tok =>
    match authHeader with
    | none => AuthResult.reject401
    | some h =>
      if "Bearer ".data.isPrefixOf h then
        if h.drop 7 = tok then AuthResult.proceed else AuthResult.reject401
      else AuthResult.reject401

/-! ## The `/mcp` endpoint (`app.all('/mcp', authenticateRequest, ...)`) -/

/-- HTTP request method, as tested by `req.method === 'GET'`. -/
inductive HttpMethod
  | get
  | post
  | other
deriving DecidableEq, Repr

/-- Outcome of one request to `/mcp`: 401 from the middleware, 405 for the
GET branch, or dispatch of the request into a session's transport
(`sessionData.transport.handleRequest`). -/
inductive McpOutcome
  | unauthorized
  | methodNotAllowed
  | dispatched (sessionId : String) (data : SessionData)
deriving DecidableEq, Repr

/-- From `src/http-server.js`, the `/mcp` handler: run the authentication
middleware; read the session id from the `mcp-session-id` header or
generate a fresh UUID; reject GET requests with 405; then look the session
up in `sessionServers`, creating and storing a fresh server/transport pair
(and recording client info and the creation timestamp) on a miss, and
dispatch through the entry's transport. -/
def handleMcp (mcpAuthToken : Option (List Char))
    (authHeader : Option (List Char)) (method : HttpMethod)
    (headerSessionId : Option String) (freshUUID : String)
    (clientInfo : ClientInfo) (now : Int) (s : ServerState) :
    McpOutcome × ServerState :=
  match authenticateRequest mcpAuthToken authHeader with
  | AuthResult.reject401 => (McpOutcome.unauthorized, s)
  | AuthResult.proceed =>
    let sessionId := headerSessionId.getD freshUUID
    if method = HttpMethod.get then (McpOutcome.methodNotAllowed, s)
    else
      match mapGet sessionId s.sessionServers with
      | some data => (McpOutcome.dispatched sessionId data, s)
      | none =>
        let data : SessionData :=
          { serverId := s.nextInstanceId, transportId := s.nextInstanceId + 1 }
        (McpOutcome.dispatched sessionId data,
          { s with
            sessionServers := mapSet sessionId data s.sessionServers
            sessionClientInfo := mapSet sessionId clientInfo s.sessionClientInfo
            sessionTimestamps := mapSet sessionId now s.sessionTimestamps
            connectionCounter := s.connectionCounter + 1
            nextInstanceId := s.nextInstanceId + 2 })

/-- From `createSessionTransport` (`src/http-server.js`): the
`onsessioninitialized` callback adds the session id to the
`activeConnections` set. -/
def onSessionInitialized (sessionId : String) (s : ServerState) : ServerState :=
  { s with
    activeConnections :=
      if s.activeConnections.contains sessionId then s.activeConnections
      else s.activeConnections ++ [sessionId] }

/-- From `createSessionTransport` (`src/http-server.js`): the
`onsessionclosed` callback deletes the session id from
`activeConnections`, `sessionServers`, `sessionClientInfo` and
`sessionTimestamps`. -/
def onSessionClosed (sessionId : String) (s : ServerState) : ServerState :=
  { s with
    activeConnections := s.activeConnections.filter (fun x => x != sessionId)
    sessionServers := mapDelete sessionId s.sessionServers
    sessionClientInfo := mapDelete sessionId s.sessionClientInfo
    sessionTimestamps := mapDelete sessionId s.sessionTimestamps }

/-- From `src/http-server.js`: `cleanupStaleSessions` iterates
`sessionTimestamps` and, for every entry with
`now - timestamp > SESSION_TIMEOUT`, deletes the session id from all four
session structures. -/
def cleanupStaleSessions (now : Int) (s : ServerState) : ServerState :=
  let staleIds :=
    (s.sessionTimestamps.filter
      (fun p => now - p.2 > SESSION_TIMEOUT)).map Prod.fst
  { s with
    activeConnections :=
      s.activeConnections.filter (fun x => !(staleIds.contains x))
    sessionServers :=
      s.sessionServers.filter (fun p => !(staleIds.contains p.1))
    sessionClientInfo :=
      s.sessionClientInfo.filter (fun p => !(staleIds.contains p.1))
    sessionTimestamps :=
      s.sessionTimestamps.filter (fun p => !(staleIds.contains p.1)) }

/-- The states reachable from process start by any interleaving of `/mcp`
requests, session-initialized and session-closed callbacks, and sweep
runs. -/
inductive Reachable : ServerState → Prop
  | init : Reachable initialState
  | mcp (mcpAuthToken : Option (List Char)) (authHeader : Option (List Char))
      (method : HttpMethod) (headerSessionId : Option String)
      (freshUUID : String) (clientInfo : ClientInfo) (now : Int)
      (s : ServerState) : Reachable s →
      Reachable (handleMcp mcpAuthToken authHeader method headerSessionId
        freshUUID clientInfo now s).2
  | initialized (sessionId : String) (s : ServerState) : Reachable s →
      Reachable (onSessionInitialized sessionId s)
  | closed (sessionId : String) (s : ServerState) : Reachable s →
      Reachable (onSessionClosed sessionId s)
  | sweep (now : Int) (s : ServerState) : Reachable s →
      Reachable (cleanupStaleSessions now s)

/-! ## The monitoring endpoints (`src/http-server.js`) -/

/-- The routes registered on the express app that the claims mention. -/
inductive Endpoint
  | health
  | metrics
  | connections
  | tools
  | mcp
deriving DecidableEq, Repr

/-- Outcome of routing one HTTP request. -/
inductive RouteOutcome
  | ok200
  | unauthorized401
  | methodNotAllowed405
  | dispatched (sessionId : String) (data : SessionData)
  | notFound404
deriving DecidableEq, Repr

/-- Request routing in `src/http-server.js`: only `app.all('/mcp', ...)`
carries the `authenticateRequest` middleware; `/health`, `/metrics`,
`/connections` and `/tools` are registered with `app.get` and no
middleware, so they answer GET requests directly (non-GET methods on them
fall through to express's 404). -/
def routeRequest (mcpAuthToken : Option (List Char))
    (authHeader : Option (List Char)) (ep : Endpoint) (method : HttpMethod)
    (headerSessionId : Option String) (freshUUID : String)
    (clientInfo : ClientInfo) (now : Int) (s : ServerState) :
    RouteOutcome × ServerState :=
  match ep with
  | Endpoint.mcp =>
    match handleMcp mcpAuthToken authHeader method headerSessionId freshUUID
        clientInfo now s with
    | (McpOutcome.unauthorized, s') => (RouteOutcome.unauthorized401, s')
    | (McpOutcome.methodNotAllowed, s') => (RouteOutcome.methodNotAllowed405, s')
    | (McpOutcome.dispatched sid d, s') => (RouteOutcome.dispatched sid d, s')
  | _ =>
    if method = HttpMethod.get then (RouteOutcome.ok200, s)
    else (RouteOutcome.notFound404, s)

/-! ## Update payload construction (`src/tools/tickets.js`, `src/tools/users.js`) -/

/-- One conditional property assignment
`if (x !== undefined) obj.name = f(x)`: contributes the key exactly when
the parameter was supplied. -/
def optEntry (name : String) (f : α → β) : Option α → List (String × β)
  | some v => [(name, f v)]
  | none => []

/-- A custom-field value, `z.union([string, number, boolean,
array(string), null])` in the `update_ticket` schema. -/
inductive CustomFieldValue
  | str (v : String)
  | num (v : Int)
  | boolean (v : Bool)
  | strList (v : List String)
  | null
deriving DecidableEq, Repr

/-- One element of the `custom_fields` array of `update_ticket`:
`{ id: number | string, value: ... }`. -/
structure CustomField where
  id : Int ⊕ String
  value : CustomFieldValue
deriving DecidableEq, Repr

/-- A value stored in the outgoing `ticket` payload of `update_ticket`. -/
inductive TicketFieldValue
  | str (v : String)
  | num (v : Int)
  | strList (v : List String)
  | commentObj (body : String)
  | customFieldList (v : List CustomField)
deriving DecidableEq, Repr

/-- The arguments of the `update_ticket` handler (`src/tools/tickets.js`);
optional schema fields are `Option`, `none` meaning the caller left the
parameter unset.  The source field `type` is named `ticketType` here. -/
structure UpdateTicketInput where
  id : Int
  subject : Option String
  comment : Option String
  priority : Option String
  status : Option String
  assignee_id : Option Int
  group_id : Option Int
  ticketType : Option String
  tags : Option (List String)
  custom_fields : Option (List CustomField)
deriving DecidableEq, Repr

/-- The `custom_fields` assignment of the `update_ticket` handler:
`if (custom_fields !== undefined && custom_fields.length > 0)
ticketData.custom_fields = custom_fields`. -/
def customFieldsEntry (o : Option (List CustomField)) :
    List (String × TicketFieldValue) :=
  match o with
  | some v =>
    if v.length > 0 then
      [("custom_fields", TicketFieldValue.customFieldList v)]
    else []
  | none => []

/-- From the `update_ticket` handler (`src/tools/tickets.js`): the
`ticketData` object built by conditional assignment — each parameter with
`x !== undefined` is copied (the `comment` string is wrapped as
`{ body: comment }`), and `custom_fields` additionally requires
`custom_fields.length > 0`. -/
def updateTicketData (inp : UpdateTicketInput) :
    List (String × TicketFieldValue) :=
  optEntry "subject" TicketFieldValue.str inp.subject ++
  optEntry "comment" TicketFieldValue.commentObj inp.comment ++
  optEntry "priority" TicketFieldValue.str inp.priority ++
  optEntry "status" TicketFieldValue.str inp.status ++
  optEntry "assignee_id" TicketFieldValue.num inp.assignee_id ++
  optEntry "group_id" TicketFieldValue.num inp.group_id ++
  optEntry "type" TicketFieldValue.str inp.ticketType ++
  optEntry "tags" TicketFieldValue.strList inp.tags ++
  customFieldsEntry inp.custom_fields

/-- A value stored in the outgoing `user` payload of `update_user`. -/
inductive UserFieldValue
  | str (v : String)
  | num (v : Int)
  | strList (v : List String)
deriving DecidableEq, Repr

/-- The arguments of the `update_user` handler (`src/tools/users.js`). -/
structure UpdateUserInput where
  id : Int
  name : Option String
  email : Option String
  role : Option String
  phone : Option String
  organization_id : Option Int
  tags : Option (List String)
  notes : Option String
deriving DecidableEq, Repr

/-- From the `update_user` handler (`src/tools/users.js`): the `userData`
object built by conditional assignment, one `if (x !== undefined)` per
optional parameter. -/
def updateUserData (inp : UpdateUserInput) : List (String × UserFieldValue) :=
  optEntry "name" UserFieldValue.str inp.name ++
  optEntry "email" UserFieldValue.str inp.email ++
  optEntry "role" UserFieldValue.str inp.role ++
  optEntry "phone" UserFieldValue.str inp.phone ++
  optEntry "organization_id" UserFieldValue.num inp.organization_id ++
  optEntry "tags" UserFieldValue.strList inp.tags ++
  optEntry "notes" UserFieldValue.str inp.notes

/-- An `update_ticket` call that supplies `custom_fields` as the empty
array and leaves every other optional parameter unset. -/
def emptyCustomFieldsInput : UpdateTicketInput :=
  { id := 1, subject := none, comment := none, priority := none
    status := none, assignee_id := none, group_id := none
    ticketType := none, tags := none, custom_fields := some [] }

/-! ## `summarize_ticket_comments` pagination (`src/tools/tickets.js`) -/

/-- One page of the upstream comment listing: the Zendesk API serves the
ticket's comments in pages of up to `perPage` items, page numbers starting
at 1 (`GET /tickets/{id}/comments.json` with `page` and `per_page`). -/
def pageSlice (comments : List α) (perPage p : Nat) : List α :=
  (comments.drop ((p - 1) * perPage)).take perPage

/-- Embeds `Math.ceil(a / b)` for the natural counts used by the handler. -/
def ceilDivNat (a b : Nat) : Nat := (a + b - 1) / b

/-- The fetch loop of `summarize_ticket_comments`:
`for (let page = 1; page <= maxPages; page++)` fetches one page, appends
its comments to `allComments`, and breaks when a page returns fewer items
than requested (`comments.length < perPage`).  Returns the accumulated
comments and the number of pages fetched.  `remaining` counts the loop
iterations left (`maxPages - page + 1`). -/
def fetchCommentsLoop (comments : List α) (perPage : Nat) :
    Nat → Nat → List α × Nat
  | _, 0 => ([], 0)
  | p, Nat.succ remaining =>
    let pg := pageSlice comments perPage p
    if pg.length < perPage then (pg, 1)
    else
      let rest := fetchCommentsLoop comments perPage (p + 1) remaining
      (pg ++ rest.1, rest.2 + 1)

/-- From the `summarize_ticket_comments` handler (`src/tools/tickets.js`):
`perPage = 100`;
`maxPages = Math.min(Math.ceil(totalCount / perPage), Math.ceil(max_comments / perPage))`;
then the fetch loop.  `totalCount` is the declared comment total from
`countTicketComments`, `comments` the ticket's comments as served by the
upstream API.  Returns all fetched comments and the page count. -/
def summarizeFetch (totalCount maxComments : Nat) (comments : List α) :
    List α × Nat :=
  let perPage := 100
  let maxPages :=
    min (ceilDivNat totalCount perPage) (ceilDivNat maxComments perPage)
  fetchCommentsLoop comments perPage 1 maxPages

/-! ## Credential guard (`src/zendesk-client.js`) -/

/-- The credential triple read from the environment in the
`ZendeskClient` constructor. -/
structure ZendeskConfig where
  subdomain : Option String
  email : Option String
  apiToken : Option String
deriving DecidableEq, Repr

/-- The error message thrown by `ZendeskClient.request` when a credential
is missing. -/
def credentialsNotConfiguredMsg : String :=
  "Zendesk credentials not configured. Please set environment variables."

/-- The guard `!this.subdomain || !this.email || !this.apiToken` at the
top of `ZendeskClient.request`. -/
def credentialsMissing (c : ZendeskConfig) : Bool :=
  c.subdomain.isNone || c.email.isNone || c.apiToken.isNone

/-- Result of one `ZendeskClient.request` call: whether the axios call was
reached, and the thrown error or returned body. -/
structure RequestTrace (α : Type) where
  networkAttempted : Bool
  result : Except String α
deriving Repr

/-- From `src/zendesk-client.js`: `request` throws the
credentials-not-configured error before building the URL or calling axios
whenever a credential is missing; otherwise it performs the HTTP call,
whose outcome is the `upstream` parameter. -/
def zendeskRequest (c : ZendeskConfig) (upstream : Except String α) :
    RequestTrace α :=
  if credentialsMissing c then
    { networkAttempted := false
      result := Except.error credentialsNotConfiguredMsg }
  else
    { networkAttempted := true, result := upstream }

/-- The `{ content: [{ type: "text", text }], isError? }` response shape
every tool handler returns; `text` is the single text block. -/
structure ToolResponse where
  text : String
  isError : Bool
deriving DecidableEq, Repr

/-- From the `list_tickets` handler (`src/tools/tickets.js`): await the
client call and render the body, or catch the error and return an
error-flagged response with text `"Error listing tickets: " + message`.
The serialized success body is abstracted as the `String` carried by the
upstream result. -/
def listTicketsHandler (c : ZendeskConfig) (upstream : Except String String) :
    Bool × ToolResponse :=
  let tr := zendeskRequest c upstream
  match tr.result with
  | Except.ok body => (tr.networkAttempted, { text := body, isError := false })
  | Except.error msg =>
    (tr.networkAttempted,
      { text := "Error listing tickets: " ++ msg, isError := true })

/-! ## The session-map invariant -/

/-- Structural invariant of the session state maintained by every
transition: the session map has duplicate-free keys, the three
session-keyed maps hold the same keys in the same order, server instances
appear in strictly increasing allocation order, each entry's transport was
allocated right after its server, and all allocated identities are below
the instance counter. -/
def Inv (s : ServerState) : Prop :=
  (keysOf s.sessionServers).Nodup ∧
  keysOf s.sessionClientInfo = keysOf s.sessionServers ∧
  keysOf s.sessionTimestamps = keysOf s.sessionServers ∧
  s.sessionServers.Pairwise (fun p q => p.2.serverId < q.2.serverId) ∧
  (∀ p ∈ s.sessionServers,
    p.2.transportId = p.2.serverId + 1 ∧ p.2.transportId < s.nextInstanceId)

/-! ## Concrete runs used to witness the lifecycle theorems -/

/-- Sample client metadata. -/
def demoClientInfo : ClientInfo :=
  { ip := "127.0.0.1", userAgent := "test-agent", host := "localhost" }

/-- State after a first POST `/mcp` request (no auth token configured)
bearing session id `session-a` at time 0: one session created. -/
def demoState1 : ServerState :=
  (handleMcp none none HttpMethod.post (some "session-a") "uuid-1"
    demoClientInfo 0 initialState).2

/-- State after a further POST `/mcp` request bearing session id
`session-b` at time 1000: two sessions with distinct instances. -/
def demoState2 : ServerState :=
  (handleMcp none none HttpMethod.post (some "session-b") "uuid-2"
    demoClientInfo 1000 demoState1).2

end ZendeskMcp

namespace ZendeskMcp

/-! ## Theorems -/

/-! ### Association-list lemmas -/

theorem mapGet_eq_none {k : String} {l : List (String × α)} :
    mapGet k l = none ↔ k ∉ keysOf l := by
  induction l with
  | nil => simp [mapGet, keysOf]
  | cons p rest ih =>
    obtain ⟨k', v'⟩ := p
    by_cases h : k' = k
    · subst h; simp [mapGet, keysOf]
    · simp [mapGet, keysOf, h, ih, Ne.symm h]

theorem mem_keys_of_mapGet_eq_some {k : String} {v : α}
    {l : List (String × α)} (h : mapGet k l = some v) : k ∈ keysOf l := by
  by_contra hk
  rw [← mapGet_eq_none] at hk
  simp [hk] at h

theorem mem_of_mapGet_eq_some {k : String} {v : α} {l : List (String × α)}
    (h : mapGet k l = some v) : (k, v) ∈ l := by
  induction l with
  | nil => simp [mapGet] at h
  | cons p rest ih =>
    obtain ⟨k', v'⟩ := p
    by_cases hk : k' = k
    · subst hk
      simp [mapGet] at h
      simp [h]
    · simp [mapGet, hk] at h
      exact List.mem_cons_of_mem _ (ih h)

theorem mapSet_of_not_mem {k : String} {l : List (String × α)} (v : α)
    (h : k ∉ keysOf l) : mapSet k v l = l ++ [(k, v)] := by
  induction l with
  | nil => simp [mapSet]
  | cons p rest ih =>
    obtain ⟨k', v'⟩ := p
    have hcons : keysOf ((k', v') :: rest) = k' :: keysOf rest := rfl
    rw [hcons, List.mem_cons] at h
    push_neg at h
    have hne : ¬k' = k := fun hk => h.1 hk.symm
    simp [mapSet, hne, ih h.2]

theorem keysOf_append (l₁ l₂ : List (String × α)) :
    keysOf (l₁ ++ l₂) = keysOf l₁ ++ keysOf l₂ := by
  simp [keysOf]

theorem keysOf_filter_key (f : String → Bool) (l : List (String × α)) :
    keysOf (l.filter fun p => f p.1) = (keysOf l).filter f := by
  induction l with
  | nil => simp [keysOf]
  | cons p rest ih =>
    by_cases h : f p.1
    · simp [keysOf, List.filter_cons, h] at ih ⊢; exact ih
    · simp only [Bool.not_eq_true] at h
      simp [keysOf, List.filter_cons, h] at ih ⊢; exact ih

theorem mapGet_append_self {k : String} {l : List (String × α)} (v : α)
    (h : k ∉ keysOf l) : mapGet k (l ++ [(k, v)]) = some v := by
  induction l with
  | nil => simp [mapGet]
  | cons p rest ih =>
    obtain ⟨k', v'⟩ := p
    have hcons : keysOf ((k', v') :: rest) = k' :: keysOf rest := rfl
    rw [hcons, List.mem_cons] at h
    push_neg at h
    have hne : ¬k' = k := fun hk => h.1 hk.symm
    simp [mapGet, hne, ih h.2]

/-! ### Invariant preservation -/

theorem inv_initial : Inv initialState := by
  simp [Inv, initialState, keysOf]

theorem inv_handleMcp (mcpAuthToken : Option (List Char))
    (authHeader : Option (List Char)) (method : HttpMethod)
    (headerSessionId : Option String) (freshUUID : String)
    (clientInfo : ClientInfo) (now : Int) (s : ServerState) (h : Inv s) :
    Inv (handleMcp mcpAuthToken authHeader method headerSessionId freshUUID
      clientInfo now s).2 := by
  obtain ⟨hnd, hci, hts, hpw, hbd⟩ := h
  unfold handleMcp
  cases authenticateRequest mcpAuthToken authHeader with
  | reject401 => exact ⟨hnd, hci, hts, hpw, hbd⟩
  | proceed =>
    by_cases hm : method = HttpMethod.get
    · simp only [hm, if_pos rfl]
      exact ⟨hnd, hci, hts, hpw, hbd⟩
    · simp only [if_neg hm]
      set sid := headerSessionId.getD freshUUID with hsid
      cases hget : mapGet sid s.sessionServers with
      | some data => exact ⟨hnd, hci, hts, hpw, hbd⟩
      | none =>
        have hnotmem : sid ∉ keysOf s.sessionServers :=
          mapGet_eq_none.mp hget
        have hci' : sid ∉ keysOf s.sessionClientInfo := by
          rw [hci]; exact hnotmem
        have hts' : sid ∉ keysOf s.sessionTimestamps := by
          rw [hts]; exact hnotmem
        simp only [mapSet_of_not_mem _ hnotmem, mapSet_of_not_mem _ hci',
          mapSet_of_not_mem _ hts']
        refine ⟨?_, ?_, ?_, ?_, ?_⟩
        · rw [keysOf_append]
          refine List.Nodup.append hnd (by simp [keysOf]) ?_
          intro x hx hx2
          have hx2' : x = sid := by simpa [keysOf] using hx2
          subst hx2'
          exact hnotmem hx
        · simpa [keysOf_append, keysOf] using hci
        · simpa [keysOf_append, keysOf] using hts
        · rw [List.pairwise_append]
          refine ⟨hpw, by simp, ?_⟩
          intro a ha b hb
          rw [List.mem_singleton] at hb
          subst hb
          obtain ⟨h1, h2⟩ := hbd a ha
          show a.2.serverId < s.nextInstanceId
          omega
        · intro p hp
          rw [List.mem_append] at hp
          rcases hp with hp | hp
          · obtain ⟨h1, h2⟩ := hbd p hp
            refine ⟨h1, ?_⟩
            show p.2.transportId < s.nextInstanceId + 2
            omega
          · rw [List.mem_singleton] at hp
            subst hp
            refine ⟨rfl, ?_⟩
            show s.nextInstanceId + 1 < s.nextInstanceId + 2
            omega

theorem inv_onSessionInitialized (sessionId : String) (s : ServerState)
    (h : Inv s) : Inv (onSessionInitialized sessionId s) := h

theorem inv_filter_key (s : ServerState) (f : String → Bool)
    (h : Inv s) :
    Inv { s with
      sessionServers := s.sessionServers.filter (fun p => f p.1)
      sessionClientInfo := s.sessionClientInfo.filter (fun p => f p.1)
      sessionTimestamps := s.sessionTimestamps.filter (fun p => f p.1) } := by
  obtain ⟨hnd, hci, hts, hpw, hbd⟩ := h
  refine ⟨?_, ?_, ?_, ?_, ?_⟩
  · simpa [keysOf_filter_key] using hnd.filter f
  · simp [keysOf_filter_key, hci, hts]
  · simp [keysOf_filter_key, hci, hts]
  · exact hpw.sublist (List.filter_sublist _)
  · intro p hp
    exact hbd p ((List.filter_sublist _).mem hp)

theorem inv_onSessionClosed (sessionId : String) (s : ServerState)
    (h : Inv s) : Inv (onSessionClosed sessionId s) := by
  have := inv_filter_key s (fun x => x != sessionId) h
  simpa [onSessionClosed, mapDelete] using this

theorem inv_cleanup (now : Int) (s : ServerState) (h : Inv s) :
    Inv (cleanupStaleSessions now s) := by
  have := inv_filter_key s
    (fun x =>
      !(((s.sessionTimestamps.filter
        (fun p => now - p.2 > SESSION_TIMEOUT)).map Prod.fst).contains x)) h
  simpa [cleanupStaleSessions] using this

/-- Every reachable state satisfies the structural session-map
invariant. -/
theorem inv_reachable {s : ServerState} (h : Reachable s) : Inv s := by
  induction h with
  | init => exact inv_initial
  | mcp a b c d e f g s' _ ih => exact inv_handleMcp a b c d e f g s' ih
  | initialized sid s' _ ih => exact inv_onSessionInitialized sid s' ih
  | closed sid s' _ ih => exact inv_onSessionClosed sid s' ih
  | sweep now s' _ ih => exact inv_cleanup now s' ih

/-! ### Reachability of the sample runs -/

theorem demoState1_reachable : Reachable demoState1 :=
  Reachable.mcp none none HttpMethod.post (some "session-a") "uuid-1"
    demoClientInfo 0 initialState Reachable.init

theorem demoState2_reachable : Reachable demoState2 :=
  Reachable.mcp none none HttpMethod.post (some "session-b") "uuid-2"
    demoClientInfo 1000 demoState1 demoState1_reachable

/-- Membership via `List.contains` on strings. -/
theorem string_contains_iff (l : List String) (x : String) :
    l.contains x = true ↔ x ∈ l := by
  simp [List.contains_iff_exists_mem_beq]

/-- With duplicate-free keys, a key determines its value. -/
theorem mem_unique_of_keys_nodup {l : List (String × α)}
    (h : (keysOf l).Nodup) {k : String} {v w : α}
    (hv : (k, v) ∈ l) (hw : (k, w) ∈ l) : v = w := by
  induction l with
  | nil => simp at hv
  | cons p rest ih =>
    obtain ⟨k', v'⟩ := p
    have hcons : keysOf ((k', v') :: rest) = k' :: keysOf rest := rfl
    rw [hcons, List.nodup_cons] at h
    rcases List.mem_cons.mp hv with hv1 | hv1 <;>
      rcases List.mem_cons.mp hw with hw1 | hw1
    · rw [Prod.mk.injEq] at hv1 hw1
      rw [hv1.2, hw1.2]
    · rw [Prod.mk.injEq] at hv1
      exact absurd (hv1.1 ▸ List.mem_map_of_mem Prod.fst hw1) h.1
    · rw [Prod.mk.injEq] at hw1
      exact absurd (hw1.1 ▸ List.mem_map_of_mem Prod.fst hv1) h.1
    · exact ih h.2 hv1 hw1

/-! ### Claim theorems -/

/-- C1: in every reachable state, distinct session identifiers hold
distinct server and transport instances, and a `/mcp` request bearing a
session identifier is dispatched through the entry stored under exactly
that identifier in the resulting state. -/
theorem session_isolation {s : ServerState} (h : Reachable s) :
    (∀ a b ea eb, a ≠ b →
      mapGet a s.sessionServers = some ea →
      mapGet b s.sessionServers = some eb →
      ea.serverId ≠ eb.serverId ∧ ea.transportId ≠ eb.transportId) ∧
    (∀ mcpAuthToken authHeader method a freshUUID clientInfo now outc s',
      handleMcp mcpAuthToken authHeader method (some a) freshUUID clientInfo
        now s = (outc, s') →
      ∀ sid data, outc = McpOutcome.dispatched sid data →
        sid = a ∧ mapGet a s'.sessionServers = some data) := by
  obtain ⟨hnd, hci, hts, hpw, hbd⟩ := inv_reachable h
  constructor
  · intro a b ea eb hab hga hgb
    have hpw' : s.sessionServers.Pairwise
        (fun p q => p.2.serverId ≠ q.2.serverId ∧
          p.2.transportId ≠ q.2.transportId) := by
      refine hpw.imp_of_mem ?_
      intro p q hp hq hlt
      obtain ⟨hp1, _⟩ := hbd p hp
      obtain ⟨hq1, _⟩ := hbd q hq
      constructor <;> omega
    have hsymm : Symmetric (fun p q : String × SessionData =>
        p.2.serverId ≠ q.2.serverId ∧ p.2.transportId ≠ q.2.transportId) :=
      fun _ _ hpq => ⟨hpq.1.symm, hpq.2.symm⟩
    have hma := mem_of_mapGet_eq_some hga
    have hmb := mem_of_mapGet_eq_some hgb
    have hne : (a, ea) ≠ (b, eb) := by
      intro hcontra
      rw [Prod.mk.injEq] at hcontra
      exact hab hcontra.1
    exact hpw'.forall hsymm hma hmb hne
  · intro mcpAuthToken authHeader method a freshUUID clientInfo now outc s'
      heq sid data hout
    unfold handleMcp at heq
    cases hauth : authenticateRequest mcpAuthToken authHeader with
    | reject401 =>
      rw [hauth] at heq
      rw [Prod.mk.injEq] at heq
      rw [← heq.1] at hout
      exact absurd hout (by simp)
    | proceed =>
      rw [hauth] at heq
      simp only [Option.getD_some] at heq
      by_cases hm : method = HttpMethod.get
      · rw [if_pos hm] at heq
        rw [Prod.mk.injEq] at heq
        rw [← heq.1] at hout
        exact absurd hout (by simp)
      · rw [if_neg hm] at heq
        cases hget : mapGet a s.sessionServers with
        | some d0 =>
          rw [hget] at heq
          rw [Prod.mk.injEq] at heq
          rw [← heq.1] at hout
          rw [McpOutcome.dispatched.injEq] at hout
          refine ⟨hout.1.symm, ?_⟩
          rw [← heq.2, ← hout.2]
          exact hget
        | none =>
          rw [hget] at heq
          rw [Prod.mk.injEq] at heq
          rw [← heq.1] at hout
          rw [McpOutcome.dispatched.injEq] at hout
          refine ⟨hout.1.symm, ?_⟩
          rw [← heq.2, ← hout.2]
          show mapGet a (mapSet a _ s.sessionServers) = _
          rw [mapSet_of_not_mem _ (mapGet_eq_none.mp hget)]
          exact mapGet_append_self _ (mapGet_eq_none.mp hget)

/-- C1 witness: after two POST requests with headers `session-a` and
`session-b`, the two stored entries have distinct server and transport
instances. -/
theorem session_isolation_witness :
    (⟨0, 1⟩ : SessionData).serverId ≠ (⟨2, 3⟩ : SessionData).serverId ∧
      (⟨0, 1⟩ : SessionData).transportId ≠ (⟨2, 3⟩ : SessionData).transportId :=
  (session_isolation demoState2_reachable).1 "session-a" "session-b" _ _
    (by decide) (by decide) (by decide)

/-- C9: in every reachable state the three session-keyed maps
`sessionServers`, `sessionClientInfo` and `sessionTimestamps` hold exactly
the same keys (in the same insertion order): creation inserts into all
three in one `/mcp` handler invocation, and both the session-close
callback and the stale sweep delete from all three (and from
`activeConnections`) in one step. -/
theorem session_maps_share_keys {s : ServerState} (h : Reachable s) :
    keysOf s.sessionClientInfo = keysOf s.sessionServers ∧
      keysOf s.sessionTimestamps = keysOf s.sessionServers := by
  obtain ⟨_, hci, hts, _, _⟩ := inv_reachable h
  exact ⟨hci, hts⟩

/-- C9 witness: the key sets agree in the concrete two-session state. -/
theorem session_maps_share_keys_witness :
    keysOf demoState2.sessionClientInfo = keysOf demoState2.sessionServers ∧
      keysOf demoState2.sessionTimestamps = keysOf demoState2.sessionServers :=
  session_maps_share_keys demoState2_reachable

/-- C2: the sweep removes a session entry exactly when
`now - createdAt > SESSION_TIMEOUT` (strictly more than 30 minutes), and
the creation timestamp is never refreshed: a later `/mcp` request bearing
an existing session identifier leaves the recorded timestamp unchanged. -/
theorem sweep_evicts_exactly_stale {s : ServerState} (h : Reachable s)
    (now : Int) (sid : String) (ts : Int) :
    ((sid, ts) ∈ (cleanupStaleSessions now s).sessionTimestamps ↔
      (sid, ts) ∈ s.sessionTimestamps ∧ now - ts ≤ SESSION_TIMEOUT) ∧
    (∀ mcpAuthToken authHeader method freshUUID clientInfo now2,
      mapGet sid s.sessionTimestamps = some ts →
      mapGet sid ((handleMcp mcpAuthToken authHeader method (some sid)
        freshUUID clientInfo now2 s).2).sessionTimestamps = some ts) := by
  obtain ⟨hnd, hci, hts, _, _⟩ := inv_reachable h
  have htsnd : (keysOf s.sessionTimestamps).Nodup := by rw [hts]; exact hnd
  constructor
  · show (sid, ts) ∈ s.sessionTimestamps.filter _ ↔ _
    rw [List.mem_filter]
    constructor
    · rintro ⟨hmem, hpred⟩
      refine ⟨hmem, ?_⟩
      have hpred' : ((s.sessionTimestamps.filter
          (fun p => now - p.2 > SESSION_TIMEOUT)).map Prod.fst).contains sid
            = false := by simpa using hpred
      by_contra hstale
      push_neg at hstale
      have hsidmem : sid ∈ ((s.sessionTimestamps.filter
          (fun p => now - p.2 > SESSION_TIMEOUT)).map Prod.fst) :=
        List.mem_map.mpr ⟨(sid, ts),
          List.mem_filter.mpr ⟨hmem, by simpa using hstale⟩, rfl⟩
      have hc := (string_contains_iff _ sid).mpr hsidmem
      rw [hpred'] at hc
      exact absurd hc (by decide)
    · rintro ⟨hmem, hfresh⟩
      refine ⟨hmem, ?_⟩
      have hnotin : sid ∉ ((s.sessionTimestamps.filter
          (fun p => now - p.2 > SESSION_TIMEOUT)).map Prod.fst) := by
        intro hsid
        rw [List.mem_map] at hsid
        obtain ⟨⟨k, ts'⟩, hk, hkeq⟩ := hsid
        rw [List.mem_filter] at hk
        obtain ⟨hk1, hk2⟩ := hk
        dsimp only at hkeq
        subst hkeq
        have heq := mem_unique_of_keys_nodup htsnd hmem hk1
        subst heq
        simp at hk2
        omega
      show (!((s.sessionTimestamps.filter
          (fun p => now - p.2 > SESSION_TIMEOUT)).map Prod.fst).contains sid)
            = true
      cases hc : ((s.sessionTimestamps.filter
          (fun p => now - p.2 > SESSION_TIMEOUT)).map Prod.fst).contains sid
      · rfl
      · exact absurd ((string_contains_iff _ _).mp hc) hnotin
  · intro mcpAuthToken authHeader method freshUUID clientInfo now2 hget
    unfold handleMcp
    cases authenticateRequest mcpAuthToken authHeader with
    | reject401 => exact hget
    | proceed =>
      by_cases hm : method = HttpMethod.get
      · simp only [hm, if_pos rfl]
        exact hget
      · simp only [if_neg hm, Option.getD_some]
        cases hsv : mapGet sid s.sessionServers with
        | some d0 => exact hget
        | none =>
          exfalso
          have h1 : sid ∈ keysOf s.sessionTimestamps :=
            mem_keys_of_mapGet_eq_some hget
          rw [hts] at h1
          exact (mapGet_eq_none.mp hsv) h1

/-- C2 witness: in the one-session state created at time 0, a sweep at
time 1 keeps the entry, and a repeat request at time 99 leaves the
recorded creation timestamp at 0. -/
theorem sweep_evicts_exactly_stale_witness :
    (("session-a", (0 : Int)) ∈
        (cleanupStaleSessions 1 demoState1).sessionTimestamps ↔
      ("session-a", (0 : Int)) ∈ demoState1.sessionTimestamps ∧
        (1 : Int) - 0 ≤ SESSION_TIMEOUT) ∧
    mapGet "session-a" ((handleMcp none none HttpMethod.post
      (some "session-a") "uuid-3" demoClientInfo 99
      demoState1).2).sessionTimestamps = some 0 :=
  ⟨(sweep_evicts_exactly_stale demoState1_reachable 1 "session-a" 0).1,
    (sweep_evicts_exactly_stale demoState1_reachable 99 "session-a" 0).2
      none none HttpMethod.post "uuid-3" demoClientInfo 99 (by decide)⟩

/-- C4: with `MCP_AUTH_TOKEN` unset every `/mcp` request passes the
middleware (never a 401); with it set, the middleware lets a request
through exactly when the `Authorization` header is literally
`Bearer <token>`, and otherwise the request is rejected with 401 with the
session state untouched (no lookup or creation). -/
theorem mcp_bearer_auth (authHeader : Option (List Char))
    (method : HttpMethod) (headerSessionId : Option String)
    (freshUUID : String) (clientInfo : ClientInfo) (now : Int)
    (s : ServerState) :
    (∀ outc s', handleMcp none authHeader method headerSessionId freshUUID
        clientInfo now s = (outc, s') → outc ≠ McpOutcome.unauthorized) ∧
    (∀ tok, authenticateRequest (some tok) authHeader = AuthResult.proceed ↔
        authHeader = some ("Bearer ".data ++ tok)) ∧
    (∀ tok, authHeader ≠ some ("Bearer ".data ++ tok) →
      handleMcp (some tok) authHeader method headerSessionId freshUUID
        clientInfo now s = (McpOutcome.unauthorized, s)) := by
  have hiff : ∀ tok : List Char,
      authenticateRequest (some tok) authHeader = AuthResult.proceed ↔
        authHeader = some ("Bearer ".data ++ tok) := by
    intro tok
    constructor
    · intro hp
      cases authHeader with
      | none => simp [authenticateRequest] at hp
      | some hd =>
        simp only [authenticateRequest] at hp
        by_cases hpre : "Bearer ".data.isPrefixOf hd
        · rw [if_pos hpre] at hp
          have hpre' : "Bearer ".data <+: hd := by
            simpa using hpre
          obtain ⟨rest, hrest⟩ := hpre'
          subst hrest
          rw [List.drop_left' (by decide)] at hp
          by_cases hr : rest = tok
          · subst hr; rfl
          · rw [if_neg hr] at hp; simp at hp
        · rw [if_neg hpre] at hp; simp at hp
    · intro heq
      subst heq
      simp only [authenticateRequest]
      have hpre : "Bearer ".data.isPrefixOf ("Bearer ".data ++ tok) := by
        simp
      rw [if_pos hpre, List.drop_left' (by decide), if_pos rfl]
  refine ⟨?_, hiff, ?_⟩
  · intro outc s' heq hbad
    unfold handleMcp at heq
    have hauth : authenticateRequest none authHeader = AuthResult.proceed := rfl
    rw [hauth] at heq
    by_cases hm : method = HttpMethod.get
    · rw [if_pos hm] at heq
      rw [Prod.mk.injEq] at heq
      rw [← heq.1] at hbad
      simp at hbad
    · rw [if_neg hm] at heq
      cases hget : mapGet (headerSessionId.getD freshUUID) s.sessionServers
        with
      | some d0 =>
        rw [hget] at heq
        rw [Prod.mk.injEq] at heq
        rw [← heq.1] at hbad
        simp at hbad
      | none =>
        rw [hget] at heq
        rw [Prod.mk.injEq] at heq
        rw [← heq.1] at hbad
        simp at hbad
  · intro tok hne
    have hrej : authenticateRequest (some tok) authHeader =
        AuthResult.reject401 := by
      cases hres : authenticateRequest (some tok) authHeader with
      | proceed => exact absurd ((hiff tok).mp hres) hne
      | reject401 => rfl
    unfold handleMcp
    rw [hrej]

/-- C4 witness: the exact header `Bearer secret` passes for token
`secret`, and with the token set a request with no header is rejected 401
on the unchanged initial state. -/
theorem mcp_bearer_auth_witness :
    authenticateRequest (some "secret".data)
        (some ("Bearer ".data ++ "secret".data)) = AuthResult.proceed ∧
      handleMcp (some "secret".data) none HttpMethod.post none "uuid-1"
        demoClientInfo 0 initialState = (McpOutcome.unauthorized, initialState) :=
  ⟨((mcp_bearer_auth (some ("Bearer ".data ++ "secret".data)) HttpMethod.post
      none "uuid-1" demoClientInfo 0 initialState).2.1 "secret".data).mpr rfl,
    (mcp_bearer_auth none HttpMethod.post none "uuid-1" demoClientInfo 0
      initialState).2.2 "secret".data (by decide)⟩

/-- C7 counterexample: an authenticated GET request to `/mcp` is answered
with 405 Method Not Allowed and the state is untouched — it is not
dispatched into a session. -/
theorem mcp_get_is_rejected_counterexample :
    handleMcp none none HttpMethod.get (some "session-a") "uuid-1"
      demoClientInfo 0 initialState =
        (McpOutcome.methodNotAllowed, initialState) := by decide

/-- C7 (amended): after authentication the session identifier is taken
from the `mcp-session-id` header (or freshly generated), POST requests are
dispatched into that session's server, but GET requests are rejected with
405 Method Not Allowed before any session lookup or creation. -/
theorem mcp_get_rejected (mcpAuthToken authHeader : Option (List Char))
    (headerSessionId : Option String) (freshUUID : String)
    (clientInfo : ClientInfo) (now : Int) (s : ServerState)
    (hauth : authenticateRequest mcpAuthToken authHeader =
      AuthResult.proceed) :
    handleMcp mcpAuthToken authHeader HttpMethod.get headerSessionId
        freshUUID clientInfo now s = (McpOutcome.methodNotAllowed, s) ∧
    (∀ outc s', handleMcp mcpAuthToken authHeader HttpMethod.post
        headerSessionId freshUUID clientInfo now s = (outc, s') →
      ∃ data, outc =
        McpOutcome.dispatched (headerSessionId.getD freshUUID) data) := by
  constructor
  · unfold handleMcp
    rw [hauth]
    rw [if_pos rfl]
  · intro outc s' heq
    unfold handleMcp at heq
    rw [hauth] at heq
    rw [if_neg (by simp)] at heq
    cases hget : mapGet (headerSessionId.getD freshUUID) s.sessionServers
      with
    | some d0 =>
      rw [hget] at heq
      rw [Prod.mk.injEq] at heq
      exact ⟨d0, heq.1.symm⟩
    | none =>
      rw [hget] at heq
      rw [Prod.mk.injEq] at heq
      exact ⟨_, heq.1.symm⟩

/-- C7 witness: a concrete GET to `/mcp` gets 405 on the unchanged state,
and the same request as POST is dispatched under its header session id. -/
theorem mcp_get_rejected_witness :
    authenticateRequest none none = AuthResult.proceed ∧
    handleMcp none none HttpMethod.get (some "scli") "uuid-9" demoClientInfo
        5 initialState = (McpOutcome.methodNotAllowed, initialState) ∧
    (∃ data, McpOutcome.dispatched "scli" (⟨0, 1⟩ : SessionData) =
        McpOutcome.dispatched ((some "scli").getD "uuid-9") data) :=
  ⟨rfl,
    (mcp_get_rejected none none (some "scli") "uuid-9" demoClientInfo 5
      initialState rfl).1,
    (mcp_get_rejected none none (some "scli") "uuid-9" demoClientInfo 5
      initialState rfl).2 (McpOutcome.dispatched "scli" ⟨0, 1⟩)
      (handleMcp none none HttpMethod.post (some "scli") "uuid-9"
        demoClientInfo 5 initialState).2 (by decide)⟩

/-- C10: the bearer-token middleware guards only `/mcp`: GET requests to
`/health`, `/metrics`, `/connections` and `/tools` succeed with no
`Authorization` header even when a token is configured, and a 401 response
can only arise from a request to `/mcp`. -/
theorem monitoring_endpoints_unauthenticated
    (mcpAuthToken authHeader : Option (List Char)) (ep : Endpoint)
    (headerSessionId : Option String) (freshUUID : String)
    (clientInfo : ClientInfo) (now : Int) (s : ServerState) :
    (ep ≠ Endpoint.mcp →
      routeRequest mcpAuthToken authHeader ep HttpMethod.get headerSessionId
        freshUUID clientInfo now s = (RouteOutcome.ok200, s)) ∧
    (∀ method outc s',
      routeRequest mcpAuthToken authHeader ep method headerSessionId
        freshUUID clientInfo now s = (outc, s') →
      outc = RouteOutcome.unauthorized401 → ep = Endpoint.mcp) := by
  constructor
  · intro hne
    cases ep with
    | mcp => exact absurd rfl hne
    | health => simp [routeRequest]
    | metrics => simp [routeRequest]
    | connections => simp [routeRequest]
    | tools => simp [routeRequest]
  · intro method outc s' heq hout
    cases ep with
    | mcp => rfl
    | health =>
      exfalso
      subst hout
      by_cases hm : method = HttpMethod.get <;> simp [routeRequest, hm] at heq
    | metrics =>
      exfalso
      subst hout
      by_cases hm : method = HttpMethod.get <;> simp [routeRequest, hm] at heq
    | connections =>
      exfalso
      subst hout
      by_cases hm : method = HttpMethod.get <;> simp [routeRequest, hm] at heq
    | tools =>
      exfalso
      subst hout
      by_cases hm : method = HttpMethod.get <;> simp [routeRequest, hm] at heq

/-- C10 witness: with a token configured, a headerless GET to `/health`
returns 200 on the unchanged state. -/
theorem monitoring_endpoints_unauthenticated_witness :
    Endpoint.health ≠ Endpoint.mcp ∧
      routeRequest (some "secret".data) none Endpoint.health HttpMethod.get
        none "uuid-1" demoClientInfo 0 initialState =
          (RouteOutcome.ok200, initialState) :=
  ⟨by decide,
    (monitoring_endpoints_unauthenticated (some "secret".data) none
      Endpoint.health none "uuid-1" demoClientInfo 0 initialState).1
      (by decide)⟩

/-- C3: for every tool name, the registration-time label
(`getToolRiskInfo` in `src/server.js`), the risk-listing label
(`getToolRiskLevel` in `src/tools/support.js`) and the pure
name-classification function of the spec coincide. -/
theorem risk_labels_agree (toolName : String) :
    (getToolRiskInfo toolName).riskLevel = getToolRiskLevel toolName ∧
      getToolRiskLevel toolName = specRiskLabel toolName := by
  unfold getToolRiskInfo getToolRiskLevel specRiskLabel isRiskyTool
  cases hd : toolName.startsWith "delete_" <;>
    cases hc : toolName.startsWith "create_" <;>
      cases hu : toolName.startsWith "update_" <;> simp

/-! ### Update payloads (C5) -/

theorem mem_keys_optEntry {k name : String} {f : α → β} {o : Option α} :
    k ∈ keysOf (optEntry name f o) ↔ k = name ∧ o ≠ none := by
  cases o <;> simp [optEntry, keysOf]

theorem mem_optEntry {k : String} {name : String} {f : α → β} {w : β}
    {o : Option α} :
    (k, w) ∈ optEntry name f o ↔ ∃ v, k = name ∧ o = some v ∧ w = f v := by
  cases o with
  | none => simp [optEntry]
  | some v =>
    simp only [optEntry, List.mem_singleton, Prod.mk.injEq,
      Option.some.injEq]
    constructor
    · rintro ⟨h1, h2⟩; exact ⟨v, h1, rfl, h2⟩
    · rintro ⟨v', h1, h2, h3⟩; subst h2; exact ⟨h1, h3⟩

theorem mem_keys_customFieldsEntry {k : String}
    {o : Option (List CustomField)} :
    k ∈ keysOf (customFieldsEntry o) ↔
      k = "custom_fields" ∧ ∃ v, o = some v ∧ 0 < v.length := by
  cases o with
  | none => simp [customFieldsEntry, keysOf]
  | some v =>
    by_cases h : v.length > 0 <;>
      simp [customFieldsEntry, h, keysOf]

theorem mem_customFieldsEntry {k : String} {w : TicketFieldValue}
    {o : Option (List CustomField)} :
    (k, w) ∈ customFieldsEntry o ↔
      k = "custom_fields" ∧
        ∃ v, o = some v ∧ 0 < v.length ∧
          w = TicketFieldValue.customFieldList v := by
  cases o with
  | none => simp [customFieldsEntry]
  | some v =>
    by_cases h : v.length > 0
    · simp only [customFieldsEntry, if_pos h, List.mem_singleton,
        Prod.mk.injEq, Option.some.injEq]
      constructor
      · rintro ⟨h1, h2⟩; exact ⟨h1, v, rfl, h, h2⟩
      · rintro ⟨h1, v', h2, _, h4⟩; subst h2; exact ⟨h1, h4⟩
    · simp only [customFieldsEntry, if_neg h]
      simp only [List.not_mem_nil, false_iff, not_and]
      rintro - ⟨v', h2, h3, -⟩
      rw [Option.some.injEq] at h2
      subst h2
      omega

/-- C5 counterexample: supplying `custom_fields` as the empty array to
`update_ticket` leaves the key out of the outgoing payload even though the
parameter was supplied, so "every parameter the caller did supply is
copied into the payload" fails. -/
theorem update_ticket_supplied_empty_custom_fields_dropped :
    emptyCustomFieldsInput.custom_fields ≠ none ∧
      updateTicketData emptyCustomFieldsInput = [] ∧
      "custom_fields" ∉ keysOf (updateTicketData emptyCustomFieldsInput) := by
  refine ⟨by decide, by decide, by decide⟩

/-- C5 (amended): for `update_ticket` and `update_user`, every optional
parameter the caller leaves unset is absent from the outgoing payload (no
key at all), and every supplied parameter is copied — with the one
exception that a supplied `custom_fields` array is copied only when it is
non-empty. -/
theorem update_payloads_omit_unset (t : UpdateTicketInput)
    (u : UpdateUserInput) :
    (("subject" ∈ keysOf (updateTicketData t) ↔ t.subject ≠ none) ∧
      ∀ v, t.subject = some v →
        ("subject", TicketFieldValue.str v) ∈ updateTicketData t) ∧
    (("comment" ∈ keysOf (updateTicketData t) ↔ t.comment ≠ none) ∧
      ∀ v, t.comment = some v →
        ("comment", TicketFieldValue.commentObj v) ∈ updateTicketData t) ∧
    (("priority" ∈ keysOf (updateTicketData t) ↔ t.priority ≠ none) ∧
      ∀ v, t.priority = some v →
        ("priority", TicketFieldValue.str v) ∈ updateTicketData t) ∧
    (("status" ∈ keysOf (updateTicketData t) ↔ t.status ≠ none) ∧
      ∀ v, t.status = some v →
        ("status", TicketFieldValue.str v) ∈ updateTicketData t) ∧
    (("assignee_id" ∈ keysOf (updateTicketData t) ↔ t.assignee_id ≠ none) ∧
      ∀ v, t.assignee_id = some v →
        ("assignee_id", TicketFieldValue.num v) ∈ updateTicketData t) ∧
    (("group_id" ∈ keysOf (updateTicketData t) ↔ t.group_id ≠ none) ∧
      ∀ v, t.group_id = some v →
        ("group_id", TicketFieldValue.num v) ∈ updateTicketData t) ∧
    (("type" ∈ keysOf (updateTicketData t) ↔ t.ticketType ≠ none) ∧
      ∀ v, t.ticketType = some v →
        ("type", TicketFieldValue.str v) ∈ updateTicketData t) ∧
    (("tags" ∈ keysOf (updateTicketData t) ↔ t.tags ≠ none) ∧
      ∀ v, t.tags = some v →
        ("tags", TicketFieldValue.strList v) ∈ updateTicketData t) ∧
    (("custom_fields" ∈ keysOf (updateTicketData t) ↔
        ∃ v, t.custom_fields = some v ∧ 0 < v.length) ∧
      ∀ v, t.custom_fields = some v → 0 < v.length →
        ("custom_fields", TicketFieldValue.customFieldList v) ∈
          updateTicketData t) ∧
    (("name" ∈ keysOf (updateUserData u) ↔ u.name ≠ none) ∧
      ∀ v, u.name = some v →
        ("name", UserFieldValue.str v) ∈ updateUserData u) ∧
    (("email" ∈ keysOf (updateUserData u) ↔ u.email ≠ none) ∧
      ∀ v, u.email = some v →
        ("email", UserFieldValue.str v) ∈ updateUserData u) ∧
    (("role" ∈ keysOf (updateUserData u) ↔ u.role ≠ none) ∧
      ∀ v, u.role = some v →
        ("role", UserFieldValue.str v) ∈ updateUserData u) ∧
    (("phone" ∈ keysOf (updateUserData u) ↔ u.phone ≠ none) ∧
      ∀ v, u.phone = some v →
        ("phone", UserFieldValue.str v) ∈ updateUserData u) ∧
    (("organization_id" ∈ keysOf (updateUserData u) ↔
        u.organization_id ≠ none) ∧
      ∀ v, u.organization_id = some v →
        ("organization_id", UserFieldValue.num v) ∈ updateUserData u) ∧
    (("tags" ∈ keysOf (updateUserData u) ↔ u.tags ≠ none) ∧
      ∀ v, u.tags = some v →
        ("tags", UserFieldValue.strList v) ∈ updateUserData u) ∧
    (("notes" ∈ keysOf (updateUserData u) ↔ u.notes ≠ none) ∧
      ∀ v, u.notes = some v →
        ("notes", UserFieldValue.str v) ∈ updateUserData u) := by
  repeat' apply And.intro
  all_goals
    simp [updateTicketData, updateUserData, keysOf_append, mem_keys_optEntry,
      mem_optEntry, mem_keys_customFieldsEntry, mem_customFieldsEntry]
  all_goals
    intro v hv hl
    exact ⟨hv, hl⟩

/-- C5 witness: a concrete `update_ticket` call supplying only `status`,
and a concrete `update_user` call supplying only `notes`. -/
theorem update_payloads_omit_unset_witness :
    (("status" ∈ keysOf (updateTicketData
        { id := 7, subject := none, comment := none, priority := none
          status := some "open", assignee_id := none, group_id := none
          ticketType := none, tags := none, custom_fields := none }) ↔
      ({ id := 7, subject := none, comment := none, priority := none
         status := some "open", assignee_id := none, group_id := none
         ticketType := none, tags := none, custom_fields := none } :
          UpdateTicketInput).status ≠ none) ∧
      ("status", TicketFieldValue.str "open") ∈ updateTicketData
        { id := 7, subject := none, comment := none, priority := none
          status := some "open", assignee_id := none, group_id := none
          ticketType := none, tags := none, custom_fields := none }) ∧
    ("notes", UserFieldValue.str "vip") ∈ updateUserData
      { id := 3, name := none, email := none, role := none, phone := none
        organization_id := none, tags := none, notes := some "vip" } := by
  have h := update_payloads_omit_unset
    { id := 7, subject := none, comment := none, priority := none
      status := some "open", assignee_id := none, group_id := none
      ticketType := none, tags := none, custom_fields := none }
    { id := 3, name := none, email := none, role := none, phone := none
      organization_id := none, tags := none, notes := some "vip" }
  refine ⟨⟨h.2.2.2.1.1, h.2.2.2.1.2 "open" rfl⟩, ?_⟩
  exact h.2.2.2.2.2.2.2.2.2.2.2.2.2.2.2.2 "vip" rfl

/-! ### `summarize_ticket_comments` pagination (C6) -/

/-- C6: evaluating the `summarize_ticket_comments` fetch logic at a ticket
with 25 comments (declared total 25, pages of up to 100) and
`max_comments = 10`: the loop stops after the first page, but it fetches
and returns all 25 comments — the caller-supplied cap of 10 is exceeded,
contradicting both the claim and the parameter's own description
("Maximum number of comments to fetch"). -/
theorem summarize_overshoots_cap :
    (summarizeFetch 25 10 (List.range 25)).2 = 1 ∧
      (summarizeFetch 25 10 (List.range 25)).1 = List.range 25 ∧
      ((summarizeFetch 25 10 (List.range 25)).1).length = 25 := by decide

/-! ### Credential guard (C8) -/

/-- C8: whenever a Zendesk credential is missing, a tool invocation (shown
for the cited `list_tickets` handler) performs no network call and returns
a normal error-flagged response whose text carries the
credentials-not-configured message — no exception escapes the handler. -/
theorem creds_missing_fails_fast (c : ZendeskConfig)
    (h : credentialsMissing c = true) (upstream : Except String String) :
    listTicketsHandler c upstream =
      (false,
        { text := "Error listing tickets: " ++ credentialsNotConfiguredMsg
          isError := true }) := by
  simp [listTicketsHandler, zendeskRequest, h]

/-- C8 witness: with the subdomain unset, the concrete call returns the
error-flagged response without attempting the network. -/
theorem creds_missing_fails_fast_witness :
    credentialsMissing
        { subdomain := none, email := some "agent@example.com"
          apiToken := some "tok" } = true ∧
      listTicketsHandler
        { subdomain := none, email := some "agent@example.com"
          apiToken := some "tok" } (Except.ok "body") =
        (false,
          { text := "Error listing tickets: " ++ credentialsNotConfiguredMsg
            isError := true }) :=
  ⟨by decide,
    creds_missing_fails_fast
      { subdomain := none, email := some "agent@example.com"
        apiToken := some "tok" } (by decide) (Except.ok "body")⟩

end ZendeskMcp
